import Mathlib

/-!
Verification of the food-rescue route-optimization and confirmation-workflow
core (`foodbank/services/route_optimizer.py` and
`foodbank/services/confirmation_workflow.py`) against its natural-language
specification.

The Python services are shallowly embedded below.  Weights and coordinates
(Python `Decimal`/`float`) are modelled as rationals; times are minutes as
integers.  The external `geopy.geodesic` distance is an external collaborator
and appears as an explicit function parameter `dist`.  Django ORM state is
modelled as explicit lists of records.
-/

namespace FoodRescue

/-- A (latitude, longitude) coordinate pair, as used by every geolocated
entity (`GroceryStore.latitude/longitude`, `FoodBank.latitude/longitude`,
`Region.center_latitude/center_longitude`). -/
abbrev Loc : Type := ℚ × ℚ

/-- `FoodDonation` (the fields the planning core reads):
`quantity_pounds` (positive decimal), optional `expiration_date` and
`sell_by_date` (days, as integers). -/
structure Donation where
  donationId : Nat
  weight : ℚ
  expirationDate : Option ℤ
  sellByDate : Option ℤ
  deriving DecidableEq, Repr

/-- `FoodBank` (the fields the allocation and delivery sequencing read):
`daily_average_need_pounds`, `storage_capacity_pounds`, `can_self_pickup`
and its coordinate. -/
structure Bank where
  bankId : Nat
  dailyNeed : ℚ
  storageCapacity : ℚ
  canSelfPickup : Bool
  loc : Loc
  deriving DecidableEq, Repr

/-- A grocery store grouped with its donations, as produced by
`RouteOptimizer._group_donations_by_store` (keys of the
`store_donations` dict, together with their value lists). -/
structure PStop where
  storeId : Nat
  loc : Loc
  donations : List Donation
  deriving DecidableEq, Repr

/-! ## GeoDistance / DurationEstimator

`RouteOptimizer._calculate_travel_time` / `_calculate_travel_time_to_bank`:
`max(5, int(distance/25*60) + 5)` (25 mph average speed, 5-minute buffer,
5-minute floor).  `int(...)` truncates; the geodesic distance is nonnegative,
so truncation is `Rat.floor`. -/

/-- Travel time in minutes given a distance in miles
(`_calculate_travel_time`, identical to `_calculate_travel_time_to_bank`). -/
def travelTime (distanceMiles : ℚ) : ℤ :=
  max 5 (Int.floor (distanceMiles / 25 * 60) + 5)

/-- `RouteOptimizer._estimate_pickup_duration`:
`max(15, int(10 + 2*item_count + 0.5*total_weight))`. -/
def estimatePickupDuration (donations : List Donation) : ℤ :=
  let totalWeight : ℚ := (donations.map (·.weight)).sum
  let itemCount : ℤ := donations.length
  max 15 (Int.floor (10 + 2 * (itemCount : ℚ) + totalWeight * (1/2)))

/-- `RouteOptimizer._estimate_delivery_duration`:
`max(20, int(15 + 3*item_count + 0.8*total_weight + 10))`. -/
def estimateDeliveryDuration (donations : List Donation) : ℤ :=
  let totalWeight : ℚ := (donations.map (·.weight)).sum
  let itemCount : ℤ := donations.length
  max 20 (Int.floor (15 + 3 * (itemCount : ℚ) + totalWeight * (4/5) + 10))

/-! ## AllocationEngine (`_allocate_food_to_banks`, `_find_best_bank_for_donation`) -/

/-- The sort key of `sorted(donations, key=lambda d: d.expiration_date or
timezone.now().date() + timedelta(days=365))`: the expiration date, or
today + 365 days when absent.  Note the source consults only
`expiration_date`, never `sell_by_date`. -/
def urgencyKey (today : ℤ) (d : Donation) : ℤ :=
  d.expirationDate.getD (today + 365)

instance urgencyDecRel (today : ℤ) :
    DecidableRel (fun a b : Donation => urgencyKey today a ≤ urgencyKey today b) :=
  fun _ _ => Int.decLe _ _

instance urgencyIsTotal (today : ℤ) :
    IsTotal Donation (fun a b => urgencyKey today a ≤ urgencyKey today b) :=
  ⟨fun a b => le_total (urgencyKey today a) (urgencyKey today b)⟩

instance urgencyIsTrans (today : ℤ) :
    IsTrans Donation (fun a b => urgencyKey today a ≤ urgencyKey today b) :=
  ⟨fun _ _ _ => le_trans⟩

/-- Python `sorted` is a stable ascending sort by key; insertion sort by the
same key is stable and ascending, hence a faithful model. -/
def sortDonations (today : ℤ) (donations : List Donation) : List Donation :=
  donations.insertionSort (fun a b => urgencyKey today a ≤ urgencyKey today b)

/-- One entry of the running allocation state: a bank together with
`bank_current_weight[bank]` and `bank_allocation[bank]`. -/
structure BankState where
  bank : Bank
  weight : ℚ
  alloc : List Donation
  deriving DecidableEq, Repr

/-- The allocation score computed inside `_find_best_bank_for_donation`:
`need_ratio * (1 - capacity_utilization)`, times 1.2 when the bank can
self-pickup and the donation exceeds 50 pounds.  `need_ratio` is 0 when
the total daily need is not positive. -/
def bankScore (b : Bank) (currentWeight : ℚ) (totalDailyNeed : ℚ) (d : Donation) : ℚ :=
  let needRatio : ℚ := if 0 < totalDailyNeed then b.dailyNeed / totalDailyNeed else 0
  let capacityUtilization : ℚ := currentWeight / b.storageCapacity
  let score := needRatio * (1 - capacityUtilization)
  if b.canSelfPickup ∧ 50 < d.weight then score * (6/5) else score

/-- The scan inside `_find_best_bank_for_donation`: `best_score` starts at
-1; banks whose remaining capacity is below the donation weight are
skipped; a strictly greater score replaces the current best (ties keep the
earlier bank).  Returns the index of the chosen bank. -/
def bestBankAux (d : Donation) (totalDailyNeed : ℚ) :
    List BankState → Nat → ℚ → Option Nat → Option Nat
  | [], _, _, best => best
  | s :: rest, idx, bestScore, best =>
    if s.bank.storageCapacity - s.weight < d.weight then
      bestBankAux d totalDailyNeed rest (idx + 1) bestScore best
    else
      let sc := bankScore s.bank s.weight totalDailyNeed d
      if bestScore < sc then bestBankAux d totalDailyNeed rest (idx + 1) sc (some idx)
      else bestBankAux d totalDailyNeed rest (idx + 1) bestScore best

/-- `_find_best_bank_for_donation`, returning the position of the selected
bank in the bank list (or `none` when every bank lacks capacity). -/
def findBestBankIdx (d : Donation) (states : List BankState) (totalDailyNeed : ℚ) : Option Nat :=
  bestBankAux d totalDailyNeed states 0 (-1) none

/-- Apply a function to the element at one position, leaving the list
unchanged when the index is out of range. -/
def modifyIdx : List α → Nat → (α → α) → List α
  | [], _, _ => []
  | x :: xs, 0, f => f x :: xs
  | x :: xs, n + 1, f => x :: modifyIdx xs n f

/-- The body of the allocation loop: assign the donation to the best bank
(appending it to that bank's list and adding its weight), or leave the
state unchanged when no bank has capacity. -/
def allocStep (totalDailyNeed : ℚ) (states : List BankState) (d : Donation) : List BankState :=
  match findBestBankIdx d states totalDailyNeed with
  | none => states
  | some i =>
    modifyIdx states i (fun s => { s with weight := s.weight + d.weight, alloc := s.alloc ++ [d] })

/-- `RouteOptimizer._allocate_food_to_banks`. -/
def allocateFoodToBanks (today : ℤ) (donations : List Donation) (banks : List Bank) :
    List BankState :=
  if banks.isEmpty then []
  else
    let totalDailyNeed : ℚ := (banks.map (·.dailyNeed)).sum
    let sortedDonations := sortDonations today donations
    let init : List BankState := banks.map (fun b => ⟨b, 0, []⟩)
    sortedDonations.foldl (fun states d => allocStep totalDailyNeed states d) init

/-! ## SequencePlanner (`_optimize_pickup_sequence`, `_optimize_delivery_sequence`)

Both functions are the same nearest-neighbor loop; the pickup variant
additionally threads a running clock and records the arrival time.  They are
embedded through one generic loop producing stop / travel / arrival / dwell
records; each wrapper then projects exactly the keys its Python dict holds. -/

/-- One visited stop as produced by the nearest-neighbor loop:
the stop itself, the travel time from the previous position, the running
clock on arrival, and the dwell duration at the stop. -/
structure SeqEntry (α : Type) where
  stop : α
  travel : ℤ
  arrival : ℤ
  duration : ℤ
  deriving DecidableEq, Repr

/-- `_find_nearest_store` / `_find_nearest_bank`: scan starting from
`min_distance = inf` keeping the first strict minimum; on a nonempty list
this is a fold starting from the first element. -/
def nearestIn (dist : Loc → Loc → ℚ) (locOf : α → Loc) (cur : Loc)
    (x : α) (xs : List α) : α :=
  xs.foldl (fun best y => if dist cur (locOf y) < dist cur (locOf best) then y else best) x

theorem nearestIn_mem (dist : Loc → Loc → ℚ) (locOf : α → Loc) (cur : Loc)
    (x : α) (xs : List α) : nearestIn dist locOf cur x xs ∈ x :: xs := by
  suffices h : ∀ (l : List α) (b : α),
      l.foldl (fun best y => if dist cur (locOf y) < dist cur (locOf best) then y else best) b
        ∈ b :: l by
    exact h xs x
  intro l
  induction l with
  | nil => intro b; simp [List.foldl]
  | cons y ys ih =>
    intro b
    simp only [List.foldl]
    by_cases hc : dist cur (locOf y) < dist cur (locOf b)
    · rw [if_pos hc]
      exact List.mem_cons_of_mem b (ih y)
    · rw [if_neg hc]
      rcases List.mem_cons.mp (ih b) with h | h
      · simp [h]
      · simp [h]

/-- The `while unvisited:` nearest-neighbor loop shared by
`_optimize_pickup_sequence` and `_optimize_delivery_sequence`: pick the
nearest unvisited stop, remove it, advance the clock by the travel time,
record the stop, then advance the clock by the dwell duration and move
the current position to the visited stop. -/
def nnAux [DecidableEq α] (dist : Loc → Loc → ℚ) (locOf : α → Loc) (dwell : α → ℤ) :
    Loc → ℤ → List α → List (SeqEntry α)
  | _, _, [] => []
  | cur, time, x :: xs =>
    let s := nearestIn dist locOf cur x xs
    let tt := travelTime (dist cur (locOf s))
    let dur := dwell s
    ⟨s, tt, time + tt, dur⟩ ::
      nnAux dist locOf dwell (locOf s) (time + tt + dur) ((x :: xs).erase s)
termination_by _ _ l => l.length
decreasing_by
  have hs : s ∈ x :: xs := nearestIn_mem dist locOf cur x xs
  simp only [List.length_erase_of_mem hs, List.length_cons]
  omega

/-- `_optimize_pickup_sequence`: nearest-neighbor over the grouped stores,
starting from the region center at 08:00 on the target day (`startTime`);
each pickup record carries its arrival time and pickup duration. -/
def optimizePickupSequence (dist : Loc → Loc → ℚ) (depot : Loc) (startTime : ℤ)
    (storeDonations : List PStop) : List (SeqEntry PStop) :=
  nnAux dist PStop.loc (fun s => estimatePickupDuration s.donations) depot startTime
    storeDonations

/-- `_optimize_delivery_sequence`: nearest-neighbor over the banks that
received an allocation (`banks_with_food`); the delivery records carry the
travel time and delivery duration (no clock is threaded in the source, so
the `arrival`/clock component of the generic loop is unused here). -/
def optimizeDeliverySequence (dist : Loc → Loc → ℚ) (depot : Loc)
    (foodAllocation : List BankState) : List (SeqEntry BankState) :=
  nnAux dist (fun s => s.bank.loc) (fun s => estimateDeliveryDuration s.alloc) depot 0
    (foodAllocation.filter (fun s => !s.alloc.isEmpty))

/-! ## RoutePlanBuilder (`_create_route_plan`)

The pickup dicts built by `_optimize_pickup_sequence` hold `store`,
`donations`, `arrival_time`, `pickup_duration` and `total_weight` — no
travel time.  The delivery dicts hold `food_bank`, `donations`,
`travel_time`, `delivery_duration` and `total_weight`.  The entry types
below carry exactly the fields `_create_route_plan` reads. -/

/-- The fields of a pickup dict that `_create_route_plan` reads.  Note
there is no travel-time field: `_optimize_pickup_sequence` never stores
one. -/
structure PickupEntry where
  pickupDuration : ℤ
  totalWeight : ℚ
  deriving DecidableEq, Repr

/-- The fields of a delivery dict that `_create_route_plan` reads. -/
structure DeliveryEntry where
  travelTime : ℤ
  deliveryDuration : ℤ
  totalWeight : ℚ
  deriving DecidableEq, Repr

/-- Project a planned pickup stop onto the dict fields read by
`_create_route_plan`. -/
def toPickupEntry (e : SeqEntry PStop) : PickupEntry :=
  { pickupDuration := e.duration, totalWeight := (e.stop.donations.map (·.weight)).sum }

/-- Project a planned delivery stop onto the dict fields read by
`_create_route_plan`. -/
def toDeliveryEntry (e : SeqEntry BankState) : DeliveryEntry :=
  { travelTime := e.travel, deliveryDuration := e.duration,
    totalWeight := (e.stop.alloc.map (·.weight)).sum }

/-- The pickup loop of `_create_route_plan`: annotate each pickup with the
current clock, then advance the clock and the duration total by the pickup
duration only.  Returns (arrival annotations, final clock, duration total). -/
def processPickups : ℤ → List PickupEntry → List ℤ × ℤ × ℤ
  | cur, [] => ([], cur, 0)
  | cur, p :: rest =>
    let r := processPickups (cur + p.pickupDuration) rest
    (cur :: r.1, r.2.1, p.pickupDuration + r.2.2)

/-- The delivery loop of `_create_route_plan`: advance the clock by the
travel time, annotate the arrival, advance by the delivery duration, and
add travel time plus delivery duration to the duration total. -/
def processDeliveries : ℤ → List DeliveryEntry → List ℤ × ℤ × ℤ
  | cur, [] => ([], cur, 0)
  | cur, d :: rest =>
    let arr := cur + d.travelTime
    let r := processDeliveries (arr + d.deliveryDuration) rest
    (arr :: r.1, r.2.1, d.travelTime + d.deliveryDuration + r.2.2)

/-- The route plan assembled by `_create_route_plan` (the fields relevant to
the claims; the heuristic efficiency score is not needed by any claim). -/
structure RoutePlan where
  pickupArrivals : List ℤ
  deliveryArrivals : List ℤ
  totalWeight : ℚ
  totalDuration : ℤ
  completionTime : ℤ
  withinCapacity : Bool
  withinTimeLimit : Bool
  deriving DecidableEq, Repr

/-- `RouteOptimizer._create_route_plan`, with the 08:00 start clock on the
target date passed as `startTime` and `region.truck_capacity_pounds` as
`truckCapacity`.  `max_duration_hours * 60 = 240`. -/
def createRoutePlan (truckCapacity : ℚ) (startTime : ℤ)
    (pickups : List PickupEntry) (deliveries : List DeliveryEntry) : RoutePlan :=
  let rp := processPickups startTime pickups
  let rd := processDeliveries rp.2.1 deliveries
  let totalDuration := rp.2.2 + rd.2.2
  let totalWeight := (pickups.map (·.totalWeight)).sum
  { pickupArrivals := rp.1
    deliveryArrivals := rd.1
    totalWeight := totalWeight
    totalDuration := totalDuration
    completionTime := rd.2.1
    withinCapacity := decide (totalWeight ≤ truckCapacity)
    withinTimeLimit := decide (totalDuration ≤ 240) }

/-- Modelled from the spec: "`totalDuration` = sum of all dwell durations
and all inter-stop travel times across both sequences".  The pickup
inter-stop travel times are not present in the pickup dicts, so the spec
formula is expressed over the planned sequences themselves, which do carry
each leg's travel time. -/
def specTotalDuration (pickups : List (SeqEntry PStop))
    (deliveries : List (SeqEntry BankState)) : ℤ :=
  (pickups.map (fun e => e.travel + e.duration)).sum +
    (deliveries.map (fun e => e.travel + e.duration)).sum

/-! ## ConfirmationWorkflow (`confirmation_workflow.py`)

Persisted `RouteStop` and `EmailScheduleNotification` rows are modelled as
explicit lists; the email sink and the per-stop send plumbing
(`_send_pickup_confirmation` etc.) are external collaborators modelled by a
per-stop outcome oracle. -/

/-- `RouteStop.stop_type`. -/
inductive StopType where
  | pickup
  | delivery
  deriving DecidableEq, Repr

/-- The `RouteStop` fields the confirmation workflow reads and writes. -/
structure RStop where
  stopId : Nat
  routeId : Nat
  stopType : StopType
  isConfirmed : Bool
  confirmedAt : Option ℤ
  notes : String
  deriving DecidableEq, Repr

/-- The `EmailScheduleNotification` fields the workflow reads and writes.
`createdAt` drives the model's default ordering `['-created_at']`. -/
structure Notification where
  notifId : Nat
  stopId : Option Nat
  isSent : Bool
  responseReceived : Bool
  responseContent : String
  createdAt : ℤ
  deriving DecidableEq, Repr

/-- The persisted state the workflow operates on. -/
structure WorkflowState where
  stops : List RStop
  notifications : List Notification
  deriving DecidableEq, Repr

/-- Does `cs` start with `pat`? -/
def startsWithChars : List Char → List Char → Bool
  | _, [] => true
  | [], _ :: _ => false
  | a :: as, b :: bs => a == b && startsWithChars as bs

/-- Python's `in` on strings: does `pat` occur as a contiguous substring of
`cs`? -/
def hasSubstr : List Char → List Char → Bool
  | [], pat => pat.isEmpty
  | c :: cs, pat => startsWithChars (c :: cs) pat || hasSubstr cs pat

/-- Python `str.strip()`: drop whitespace from both ends. -/
def stripChars (cs : List Char) : List Char :=
  ((cs.dropWhile Char.isWhitespace).reverse.dropWhile Char.isWhitespace).reverse

/-- `response_content.lower().strip()` from `process_email_response`. -/
def lowerStrip (text : String) : List Char :=
  stripChars (text.toList.map Char.toLower)

/-- The structured result dict of `process_email_response`. -/
structure RespResult where
  stopId : Nat
  processed : Bool
  action : Option String
  message : String
  deriving DecidableEq, Repr

/-- The most recent sent notification for a stop:
`EmailScheduleNotification.objects.filter(route_stop=stop, is_sent=True)
.first()` under the model ordering `['-created_at']`, i.e. the sent
notification for the stop with the greatest `createdAt` (ties resolved to
the earliest in store order; tie order is database-dependent). -/
def mostRecentSent (notifs : List Notification) (sid : Nat) : Option Notification :=
  (notifs.filter (fun n => n.stopId == some sid && n.isSent)).foldl
    (fun acc n =>
      match acc with
      | none => some n
      | some m => if m.createdAt < n.createdAt then some n else some m)
    none

/-- `ConfirmationWorkflowService.process_email_response`.  Looks the stop up
by id; classifies the lower-cased, stripped response text; on "confirmed"
sets the stop confirmed (with `confirmed_at = now`) and marks the most
recent sent notification as responded; on "reschedule" overwrites the
stop's notes with a reschedule annotation; otherwise overwrites the notes
with a generic annotation.  Unknown ids yield a not-found result and leave
the state unchanged. -/
def processEmailResponse (now : ℤ) (sid : Nat) (text : String) (st : WorkflowState) :
    WorkflowState × RespResult :=
  match st.stops.find? (fun s => s.stopId == sid) with
  | none =>
    (st, { stopId := sid, processed := false, action := none,
           message := "Route stop not found" })
  | some _ =>
    let rl := lowerStrip text
    if hasSubstr rl "confirmed".toList then
      let stops := st.stops.map (fun s =>
        if s.stopId == sid then { s with isConfirmed := true, confirmedAt := some now } else s)
      let notifications :=
        match mostRecentSent st.notifications sid with
        | none => st.notifications
        | some n => st.notifications.map (fun m =>
            if m.notifId == n.notifId then
              { m with responseReceived := true, responseContent := text }
            else m)
      (⟨stops, notifications⟩,
       { stopId := sid, processed := true, action := some "confirmed",
         message := "Pickup/delivery confirmed successfully" })
    else if hasSubstr rl "reschedule".toList then
      let stops := st.stops.map (fun s =>
        if s.stopId == sid then { s with notes := "Reschedule requested: " ++ text } else s)
      (⟨stops, st.notifications⟩,
       { stopId := sid, processed := true, action := some "reschedule_requested",
         message := "Reschedule request received - manual review required" })
    else
      let stops := st.stops.map (fun s =>
        if s.stopId == sid then { s with notes := "Response received: " ++ text } else s)
      (⟨stops, st.notifications⟩,
       { stopId := sid, processed := true, action := some "response_recorded",
         message := "Response recorded - may require manual review" })

/-- The aggregate status dict of `check_pending_confirmations`. -/
structure ConfStatus where
  totalStops : Nat
  confirmedStops : Nat
  pendingStops : Nat
  confirmationRate : ℚ
  pickupTotal : Nat
  pickupConfirmed : Nat
  pickupPending : Nat
  deliveryTotal : Nat
  deliveryConfirmed : Nat
  deliveryPending : Nat
  readyForExecution : Bool
  deriving DecidableEq, Repr

/-- `ConfirmationWorkflowService.check_pending_confirmations` over the
stops of the route (`route.stops.all()`). -/
def checkPendingConfirmations (stops : List RStop) : ConfStatus :=
  let total := stops.length
  let confirmed := (stops.filter (·.isConfirmed)).length
  let pending := total - confirmed
  let pickups := stops.filter (fun s => s.stopType == StopType.pickup)
  let deliveries := stops.filter (fun s => s.stopType == StopType.delivery)
  let confirmedPickups := (pickups.filter (·.isConfirmed)).length
  let confirmedDeliveries := (deliveries.filter (·.isConfirmed)).length
  { totalStops := total
    confirmedStops := confirmed
    pendingStops := pending
    confirmationRate := if 0 < total then (confirmed : ℚ) / (total : ℚ) * 100 else 0
    pickupTotal := pickups.length
    pickupConfirmed := confirmedPickups
    pickupPending := pickups.length - confirmedPickups
    deliveryTotal := deliveries.length
    deliveryConfirmed := confirmedDeliveries
    deliveryPending := deliveries.length - confirmedDeliveries
    readyForExecution := decide (pending = 0) }

/-- The per-stop outcome of one send attempt, abstracting the email sink
and the notification plumbing: the helper returned `True`, returned
`False`, or raised (caught by the per-stop `try/except`). -/
inductive SendOutcome where
  | ok
  | sendFailed
  | raised
  deriving DecidableEq, Repr

/-- The statistics dict returned by every batch sender. -/
structure BatchResult where
  sent : Nat
  failed : Nat
  total : Nat
  deriving DecidableEq, Repr

/-- The shared batch loop of `send_pickup_confirmations`,
`send_delivery_confirmations` and `send_schedule_change_notifications`:
every stop of the subset is attempted; a `True` outcome increments `sent`,
a `False` outcome or a caught exception increments `failed`. -/
def batchTally (outcome : RStop → SendOutcome) (stops : List RStop) : BatchResult :=
  let counts := stops.foldl
    (fun (acc : Nat × Nat) s =>
      match outcome s with
      | SendOutcome.ok => (acc.1 + 1, acc.2)
      | SendOutcome.sendFailed => (acc.1, acc.2 + 1)
      | SendOutcome.raised => (acc.1, acc.2 + 1))
    (0, 0)
  { sent := counts.1, failed := counts.2, total := stops.length }

/-- `send_pickup_confirmations`: the batch loop over
`route.stops.filter(stop_type='pickup')`. -/
def sendPickupConfirmations (outcome : RStop → SendOutcome) (routeStops : List RStop) :
    BatchResult :=
  batchTally outcome (routeStops.filter (fun s => s.stopType == StopType.pickup))

/-- `send_delivery_confirmations`: the batch loop over
`route.stops.filter(stop_type='delivery')`. -/
def sendDeliveryConfirmations (outcome : RStop → SendOutcome) (routeStops : List RStop) :
    BatchResult :=
  batchTally outcome (routeStops.filter (fun s => s.stopType == StopType.delivery))

/-- `send_schedule_change_notifications`: the batch loop over all stops of
the route. -/
def sendScheduleChangeNotifications (outcome : RStop → SendOutcome)
    (routeStops : List RStop) : BatchResult :=
  batchTally outcome routeStops

/-! ## Supporting lemmas -/

theorem processPickups_total (cur : ℤ) (ps : List PickupEntry) :
    (processPickups cur ps).2.2 = (ps.map (·.pickupDuration)).sum := by
  induction ps generalizing cur with
  | nil => simp [processPickups]
  | cons p rest ih => simp [processPickups, ih]

theorem processDeliveries_total (cur : ℤ) (ds : List DeliveryEntry) :
    (processDeliveries cur ds).2.2 =
      (ds.map (fun d => d.travelTime + d.deliveryDuration)).sum := by
  induction ds generalizing cur with
  | nil => simp [processDeliveries]
  | cons d rest ih =>
    simp only [processDeliveries, List.map_cons, List.sum_cons, ih]

theorem countP_add_countP_neg {α : Type} (p : α → Bool) (l : List α) :
    l.countP p + l.countP (fun s => !p s) = l.length := by
  induction l with
  | nil => rfl
  | cons s rest ih =>
    cases h : p s <;> simp [List.countP_cons, h] <;> omega

theorem batchTally_counts (outcome : RStop → SendOutcome) (stops : List RStop) :
    (batchTally outcome stops).sent =
        stops.countP (fun s => outcome s == SendOutcome.ok)
      ∧ (batchTally outcome stops).failed =
        stops.countP (fun s => !(outcome s == SendOutcome.ok))
      ∧ (batchTally outcome stops).total = stops.length := by
  have aux : ∀ (l : List RStop) (a b : Nat),
      l.foldl
        (fun (acc : Nat × Nat) s =>
          match outcome s with
          | SendOutcome.ok => (acc.1 + 1, acc.2)
          | SendOutcome.sendFailed => (acc.1, acc.2 + 1)
          | SendOutcome.raised => (acc.1, acc.2 + 1))
        (a, b) =
      (a + l.countP (fun s => outcome s == SendOutcome.ok),
       b + l.countP (fun s => !(outcome s == SendOutcome.ok))) := by
    intro l
    induction l with
    | nil => intro a b; simp
    | cons s rest ih =>
      intro a b
      cases h : outcome s <;>
        simp [List.foldl_cons, List.countP_cons, h, ih] <;> omega
  refine ⟨?_, ?_, rfl⟩ <;> simp [batchTally, aux]

/-! ## Claim theorems -/

/-- C1 (amended): `_create_route_plan` reports a `totalDuration` equal to
the sum of the pickup dwell durations plus the sum of the delivery travel
times and delivery dwell durations; the inter-stop travel times of the
pickup sequence are not included (the pickup dicts carry no travel time). -/
theorem totalDuration_dwell_and_delivery_travel (truckCapacity : ℚ) (startTime : ℤ)
    (pickups : List PickupEntry) (deliveries : List DeliveryEntry) :
    (createRoutePlan truckCapacity startTime pickups deliveries).totalDuration =
      (pickups.map (·.pickupDuration)).sum +
        (deliveries.map (fun d => d.travelTime + d.deliveryDuration)).sum := by
  simp [createRoutePlan, processPickups_total, processDeliveries_total]

/-- A distance function whose only use is to pin down a concrete run:
25 miles between distinct points. -/
def cexDist : Loc → Loc → ℚ := fun a b => if a = b then 0 else 25

def cexDonation : Donation := ⟨1, 10, none, none⟩

def cexStore : PStop := ⟨1, (1, 1), [cexDonation]⟩

/-- C1 (counterexample): for a single pickup stop 25 miles from the depot
(travel time 65 minutes, pickup dwell 17 minutes) and no deliveries, the
plan's `totalDuration` is 17, while the sum of all dwell durations and all
inter-stop travel times across both sequences is 82: the claimed equality
fails because the pickup leg's travel time is dropped. -/
theorem totalDuration_omits_pickup_travel :
    (createRoutePlan 2000 480
        ((optimizePickupSequence cexDist (0, 0) 480 [cexStore]).map toPickupEntry)
        []).totalDuration = 17
    ∧ specTotalDuration (optimizePickupSequence cexDist (0, 0) 480 [cexStore]) [] = 82 := by
  have h : optimizePickupSequence cexDist (0, 0) 480 [cexStore] =
      [⟨cexStore, 65, 545, 17⟩] := by
    simp [optimizePickupSequence, nnAux, nearestIn, cexDist, cexStore, cexDonation,
      travelTime, estimatePickupDuration]
    norm_num
  rw [h]
  constructor
  · rfl
  · rfl

/-- C7: an unknown stop id makes `process_email_response` return the
structured not-found result and leave every stop and notification
untouched. -/
theorem processEmailResponse_not_found (now : ℤ) (sid : Nat) (text : String)
    (st : WorkflowState)
    (h : st.stops.find? (fun s => s.stopId == sid) = none) :
    processEmailResponse now sid text st =
      (st, { stopId := sid, processed := false, action := none,
             message := "Route stop not found" }) := by
  simp [processEmailResponse, h]

theorem processEmailResponse_not_found_witness :
    (WorkflowState.mk [] []).stops.find? (fun s => s.stopId == 7) = none
    ∧ processEmailResponse 0 7 "confirmed" (WorkflowState.mk [] []) =
      (WorkflowState.mk [] [],
       { stopId := 7, processed := false, action := none,
         message := "Route stop not found" }) :=
  ⟨rfl, processEmailResponse_not_found 0 7 "confirmed" (WorkflowState.mk [] []) rfl⟩

/-- C9: each batch sender attempts every stop of its subset: `sent` counts
exactly the successful attempts, `failed` counts exactly the unsuccessful
ones (a returned failure or a caught internal exception alike), and
`sent + failed = total`, the size of the subset — so no outcome of one
stop aborts the rest, and a result object is always produced. -/
theorem batch_senders_account_for_every_stop (outcome : RStop → SendOutcome)
    (routeStops : List RStop) :
    ((sendPickupConfirmations outcome routeStops).sent =
        (routeStops.filter (fun s => s.stopType == StopType.pickup)).countP
          (fun s => outcome s == SendOutcome.ok)
      ∧ (sendPickupConfirmations outcome routeStops).failed =
        (routeStops.filter (fun s => s.stopType == StopType.pickup)).countP
          (fun s => !(outcome s == SendOutcome.ok))
      ∧ (sendPickupConfirmations outcome routeStops).sent +
          (sendPickupConfirmations outcome routeStops).failed =
        (sendPickupConfirmations outcome routeStops).total
      ∧ (sendPickupConfirmations outcome routeStops).total =
        (routeStops.filter (fun s => s.stopType == StopType.pickup)).length)
    ∧ ((sendDeliveryConfirmations outcome routeStops).sent =
        (routeStops.filter (fun s => s.stopType == StopType.delivery)).countP
          (fun s => outcome s == SendOutcome.ok)
      ∧ (sendDeliveryConfirmations outcome routeStops).failed =
        (routeStops.filter (fun s => s.stopType == StopType.delivery)).countP
          (fun s => !(outcome s == SendOutcome.ok))
      ∧ (sendDeliveryConfirmations outcome routeStops).sent +
          (sendDeliveryConfirmations outcome routeStops).failed =
        (sendDeliveryConfirmations outcome routeStops).total
      ∧ (sendDeliveryConfirmations outcome routeStops).total =
        (routeStops.filter (fun s => s.stopType == StopType.delivery)).length)
    ∧ ((sendScheduleChangeNotifications outcome routeStops).sent =
        routeStops.countP (fun s => outcome s == SendOutcome.ok)
      ∧ (sendScheduleChangeNotifications outcome routeStops).failed =
        routeStops.countP (fun s => !(outcome s == SendOutcome.ok))
      ∧ (sendScheduleChangeNotifications outcome routeStops).sent +
          (sendScheduleChangeNotifications outcome routeStops).failed =
        (sendScheduleChangeNotifications outcome routeStops).total
      ∧ (sendScheduleChangeNotifications outcome routeStops).total =
        routeStops.length) := by
  refine ⟨⟨?_, ?_, ?_, rfl⟩, ⟨?_, ?_, ?_, rfl⟩, ⟨?_, ?_, ?_, rfl⟩⟩
  all_goals
    first
    | exact (batchTally_counts outcome _).1
    | exact (batchTally_counts outcome _).2.1
    | · obtain ⟨h1, h2, h3⟩ := batchTally_counts outcome _
        rw [sendPickupConfirmations, h1, h2, h3, countP_add_countP_neg]
    | · obtain ⟨h1, h2, h3⟩ := batchTally_counts outcome _
        rw [sendDeliveryConfirmations, h1, h2, h3, countP_add_countP_neg]
    | · obtain ⟨h1, h2, h3⟩ := batchTally_counts outcome _
        rw [sendScheduleChangeNotifications, h1, h2, h3, countP_add_countP_neg]

theorem length_sub_filter (p : RStop → Bool) (l : List RStop) :
    l.length - (l.filter p).length = (l.filter (fun s => !p s)).length := by
  induction l with
  | nil => rfl
  | cons s rest ih =>
    have hle := List.length_filter_le p rest
    cases h : p s <;> simp [List.filter_cons, h] <;> omega

theorem stopType_split (l : List RStop) :
    (l.filter (fun s => s.stopType == StopType.pickup)).length
      + (l.filter (fun s => s.stopType == StopType.delivery)).length = l.length := by
  induction l with
  | nil => rfl
  | cons s rest ih =>
    cases h : s.stopType <;> simp [List.filter_cons, h, Nat.add_assoc, Nat.add_comm,
      Nat.add_left_comm, ih] <;> omega

theorem pending_by_type (l : List RStop) (ty : StopType) :
    (l.filter (fun s => s.stopType == ty)).length
        - ((l.filter (fun s => s.stopType == ty)).filter (·.isConfirmed)).length
      = (l.filter (fun s => !s.isConfirmed && s.stopType == ty)).length := by
  rw [length_sub_filter, List.filter_filter]

/-- C8: `check_pending_confirmations` counts stops and confirmations, splits
them by stop type (the two splits partition the total), reports
`pending` as the number of unconfirmed stops, a confirmation rate of
`confirmed/total*100` (0 for an empty route), and `readyForExecution`
exactly when every stop of the route is confirmed. -/
theorem checkPendingConfirmations_spec (stops : List RStop) :
    ((checkPendingConfirmations stops).readyForExecution = true ↔
        ∀ s ∈ stops, s.isConfirmed = true)
    ∧ (checkPendingConfirmations stops).totalStops = stops.length
    ∧ (checkPendingConfirmations stops).confirmedStops =
        (stops.filter (·.isConfirmed)).length
    ∧ (checkPendingConfirmations stops).pendingStops =
        (stops.filter (fun s => !s.isConfirmed)).length
    ∧ (checkPendingConfirmations stops).confirmationRate =
        (if stops.length = 0 then 0
         else ((stops.filter (·.isConfirmed)).length : ℚ) / (stops.length : ℚ) * 100)
    ∧ (checkPendingConfirmations stops).pickupTotal +
          (checkPendingConfirmations stops).deliveryTotal =
        (checkPendingConfirmations stops).totalStops
    ∧ (checkPendingConfirmations stops).pickupPending =
        (stops.filter (fun s => !s.isConfirmed && s.stopType == StopType.pickup)).length
    ∧ (checkPendingConfirmations stops).deliveryPending =
        (stops.filter (fun s => !s.isConfirmed && s.stopType == StopType.delivery)).length := by
  refine ⟨?_, rfl, rfl, ?_, ?_, ?_, ?_, ?_⟩
  · rw [checkPendingConfirmations]
    simp only [decide_eq_true_eq]
    rw [length_sub_filter, List.length_eq_zero, List.filter_eq_nil_iff]
    constructor
    · intro h s hs
      have := h s hs
      simpa using this
    · intro h s hs
      simpa using h s hs
  · rw [checkPendingConfirmations]
    exact length_sub_filter _ stops
  · rw [checkPendingConfirmations]
    by_cases h : stops.length = 0 <;> simp [h, Nat.pos_of_ne_zero]
  · exact stopType_split stops
  · rw [checkPendingConfirmations]
    exact pending_by_type stops StopType.pickup
  · rw [checkPendingConfirmations]
    exact pending_by_type stops StopType.delivery

/-- `find?` by stop id commutes with an id-preserving per-row update. -/
theorem find?_map_preserving (l : List RStop) (sid : Nat) (f : RStop → RStop)
    (hf : ∀ s, (f s).stopId = s.stopId) :
    (l.map f).find? (fun s => s.stopId == sid) =
      (l.find? (fun s => s.stopId == sid)).map f := by
  induction l with
  | nil => rfl
  | cons s rest ih =>
    simp only [List.map_cons, List.find?_cons, hf s]
    cases h : (s.stopId == sid) <;> simp [h, ih]

theorem confirmUpdate_id_preserving (now : ℤ) (sid : Nat) : ∀ s : RStop,
    ((if s.stopId == sid then { s with isConfirmed := true, confirmedAt := some now }
      else s) : RStop).stopId = s.stopId := by
  intro s
  by_cases h : (s.stopId == sid) <;> simp [h]

theorem notesUpdate_id_preserving (note : String) (sid : Nat) : ∀ s : RStop,
    ((if s.stopId == sid then { s with notes := note } else s) : RStop).stopId = s.stopId := by
  intro s
  by_cases h : (s.stopId == sid) <;> simp [h]

/-- C10: a response text containing both "confirmed" and "reschedule"
(case-insensitively) is treated as a confirmation: the stop is confirmed,
the result reports the confirmed action, and no note annotation (reschedule
or otherwise) is written to any stop, because the "confirmed" branch is
tested first. -/
theorem confirmed_branch_wins_over_reschedule (now : ℤ) (sid : Nat) (text : String)
    (st : WorkflowState) (stop : RStop)
    (hfind : st.stops.find? (fun s => s.stopId == sid) = some stop)
    (hc : hasSubstr (lowerStrip text) "confirmed".toList = true)
    (hr : hasSubstr (lowerStrip text) "reschedule".toList = true) :
    (processEmailResponse now sid text st).2.action = some "confirmed"
    ∧ (processEmailResponse now sid text st).1.stops.find? (fun s => s.stopId == sid) =
        some { stop with isConfirmed := true, confirmedAt := some now }
    ∧ (processEmailResponse now sid text st).1.stops.map (·.notes) =
        st.stops.map (·.notes) := by
  have hstop : (stop.stopId == sid) = true :=
    @List.find?_some RStop (fun s => s.stopId == sid) stop st.stops hfind
  simp only [processEmailResponse, hfind, hc, if_true]
  refine ⟨trivial, ?_, ?_⟩
  · rw [find?_map_preserving st.stops sid _ (confirmUpdate_id_preserving now sid), hfind]
    have : stop.stopId = sid := by simpa using hstop
    simp [this]
  · rw [List.map_map]
    apply List.map_congr_left
    intro s _
    by_cases h : s.stopId = sid <;> simp [h]

def c10Stop : RStop :=
  { stopId := 1, routeId := 1, stopType := StopType.pickup, isConfirmed := false,
    confirmedAt := none, notes := "" }

theorem confirmed_branch_wins_over_reschedule_witness :
    ((WorkflowState.mk [c10Stop] []).stops.find? (fun s => s.stopId == 1) = some c10Stop
      ∧ hasSubstr (lowerStrip "Confirmed, no need to reschedule") "confirmed".toList = true
      ∧ hasSubstr (lowerStrip "Confirmed, no need to reschedule") "reschedule".toList = true)
    ∧ ((processEmailResponse 5 1 "Confirmed, no need to reschedule"
          (WorkflowState.mk [c10Stop] [])).2.action = some "confirmed"
      ∧ (processEmailResponse 5 1 "Confirmed, no need to reschedule"
          (WorkflowState.mk [c10Stop] [])).1.stops.find? (fun s => s.stopId == 1) =
        some { c10Stop with isConfirmed := true, confirmedAt := some 5 }
      ∧ (processEmailResponse 5 1 "Confirmed, no need to reschedule"
          (WorkflowState.mk [c10Stop] [])).1.stops.map (·.notes) =
        (WorkflowState.mk [c10Stop] []).stops.map (·.notes)) :=
  ⟨⟨by decide, by decide, by decide⟩,
    confirmed_branch_wins_over_reschedule 5 1 "Confirmed, no need to reschedule"
      (WorkflowState.mk [c10Stop] []) c10Stop (by decide) (by decide) (by decide)⟩

def c6Stop : RStop :=
  { stopId := 1, routeId := 1, stopType := StopType.pickup, isConfirmed := false,
    confirmedAt := none, notes := "Gate code 4411" }

/-- C6 (counterexample): on a "reschedule" response the code *overwrites*
the stop's notes (`stop.notes = f"Reschedule requested: ..."`) instead of
appending: the prior note is gone — it is not even a substring of the new
notes — so no annotation is appended to the notes. -/
theorem reschedule_overwrites_notes :
    (processEmailResponse 0 1 "please reschedule" (WorkflowState.mk [c6Stop] [])).1.stops =
      [{ c6Stop with notes := "Reschedule requested: please reschedule" }]
    ∧ hasSubstr ("Reschedule requested: please reschedule".toList)
        ("Gate code 4411".toList) = false := by
  constructor
  · decide
  · decide

/-- C6 (amended): `process_email_response` classifies the lower-cased,
stripped text: "confirmed" confirms the stop with `confirmedAt = now`
(leaving its notes intact) and marks the most recent sent notification for
the stop as responded; "reschedule" leaves the stop's confirmation state
untouched and *replaces* its notes with a reschedule annotation; any other
text leaves the confirmation state untouched and *replaces* the notes with
a generic annotation. -/
theorem processEmailResponse_classification (now : ℤ) (sid : Nat) (text : String)
    (st : WorkflowState) (stop : RStop)
    (hfind : st.stops.find? (fun s => s.stopId == sid) = some stop) :
    (hasSubstr (lowerStrip text) "confirmed".toList = true →
        (processEmailResponse now sid text st).2.action = some "confirmed"
        ∧ (processEmailResponse now sid text st).1.stops.find? (fun s => s.stopId == sid) =
            some { stop with isConfirmed := true, confirmedAt := some now }
        ∧ (∀ n, mostRecentSent st.notifications sid = some n →
            ∀ m ∈ (processEmailResponse now sid text st).1.notifications,
              m.notifId = n.notifId →
                m.responseReceived = true ∧ m.responseContent = text)
        ∧ (mostRecentSent st.notifications sid = none →
            (processEmailResponse now sid text st).1.notifications = st.notifications))
    ∧ (hasSubstr (lowerStrip text) "confirmed".toList = false →
        hasSubstr (lowerStrip text) "reschedule".toList = true →
        (processEmailResponse now sid text st).2.action = some "reschedule_requested"
        ∧ (processEmailResponse now sid text st).1.stops.find? (fun s => s.stopId == sid) =
            some { stop with notes := "Reschedule requested: " ++ text }
        ∧ (processEmailResponse now sid text st).1.notifications = st.notifications)
    ∧ (hasSubstr (lowerStrip text) "confirmed".toList = false →
        hasSubstr (lowerStrip text) "reschedule".toList = false →
        (processEmailResponse now sid text st).2.action = some "response_recorded"
        ∧ (processEmailResponse now sid text st).1.stops.find? (fun s => s.stopId == sid) =
            some { stop with notes := "Response received: " ++ text }
        ∧ (processEmailResponse now sid text st).1.notifications = st.notifications) := by
  have hstop : (stop.stopId == sid) = true :=
    @List.find?_some RStop (fun s => s.stopId == sid) stop st.stops hfind
  have hstopId : stop.stopId = sid := by simpa using hstop
  refine ⟨?_, ?_, ?_⟩
  · intro hc
    simp only [processEmailResponse, hfind, hc, if_true]
    refine ⟨trivial, ?_, ?_, ?_⟩
    · rw [find?_map_preserving st.stops sid _ (confirmUpdate_id_preserving now sid), hfind]
      simp [hstopId]
    · intro n hn m hm hmid
      simp only [hn] at hm
      obtain ⟨m0, _, rfl⟩ := List.mem_map.mp hm
      by_cases h0 : m0.notifId = n.notifId
      · simp [h0]
      · have hb : (m0.notifId == n.notifId) = false := by simp [h0]
        rw [hb] at hmid
        simp at hmid
        exact absurd hmid h0
    · intro hn
      simp only [hn]
  · intro hc hr
    simp only [processEmailResponse, hfind, hc, hr, if_true, Bool.false_eq_true, if_false]
    refine ⟨trivial, ?_, trivial⟩
    rw [find?_map_preserving st.stops sid _
      (notesUpdate_id_preserving ("Reschedule requested: " ++ text) sid), hfind]
    simp [hstopId]
  · intro hc hr
    simp only [processEmailResponse, hfind, hc, hr, Bool.false_eq_true, if_false]
    refine ⟨trivial, ?_, trivial⟩
    rw [find?_map_preserving st.stops sid _
      (notesUpdate_id_preserving ("Response received: " ++ text) sid), hfind]
    simp [hstopId]

def c6wStop : RStop :=
  { stopId := 2, routeId := 1, stopType := StopType.delivery, isConfirmed := false,
    confirmedAt := none, notes := "keep" }

def c6wNotif : Notification :=
  { notifId := 10, stopId := some 2, isSent := true, responseReceived := false,
    responseContent := "", createdAt := 100 }

def c6wState : WorkflowState := ⟨[c6wStop], [c6wNotif]⟩

theorem processEmailResponse_classification_witness :
    c6wState.stops.find? (fun s => s.stopId == 2) = some c6wStop
    ∧ ((hasSubstr (lowerStrip "CONFIRMED") "confirmed".toList = true →
          (processEmailResponse 9 2 "CONFIRMED" c6wState).2.action = some "confirmed"
          ∧ (processEmailResponse 9 2 "CONFIRMED" c6wState).1.stops.find?
              (fun s => s.stopId == 2) =
              some { c6wStop with isConfirmed := true, confirmedAt := some 9 }
          ∧ (∀ n, mostRecentSent c6wState.notifications 2 = some n →
              ∀ m ∈ (processEmailResponse 9 2 "CONFIRMED" c6wState).1.notifications,
                m.notifId = n.notifId →
                  m.responseReceived = true ∧ m.responseContent = "CONFIRMED")
          ∧ (mostRecentSent c6wState.notifications 2 = none →
              (processEmailResponse 9 2 "CONFIRMED" c6wState).1.notifications =
                c6wState.notifications))
      ∧ (hasSubstr (lowerStrip "CONFIRMED") "confirmed".toList = false →
          hasSubstr (lowerStrip "CONFIRMED") "reschedule".toList = true →
          (processEmailResponse 9 2 "CONFIRMED" c6wState).2.action =
            some "reschedule_requested"
          ∧ (processEmailResponse 9 2 "CONFIRMED" c6wState).1.stops.find?
              (fun s => s.stopId == 2) =
              some { c6wStop with notes := "Reschedule requested: " ++ "CONFIRMED" }
          ∧ (processEmailResponse 9 2 "CONFIRMED" c6wState).1.notifications =
              c6wState.notifications)
      ∧ (hasSubstr (lowerStrip "CONFIRMED") "confirmed".toList = false →
          hasSubstr (lowerStrip "CONFIRMED") "reschedule".toList = false →
          (processEmailResponse 9 2 "CONFIRMED" c6wState).2.action =
            some "response_recorded"
          ∧ (processEmailResponse 9 2 "CONFIRMED" c6wState).1.stops.find?
              (fun s => s.stopId == 2) =
              some { c6wStop with notes := "Response received: " ++ "CONFIRMED" }
          ∧ (processEmailResponse 9 2 "CONFIRMED" c6wState).1.notifications =
              c6wState.notifications)) :=
  ⟨by decide,
    processEmailResponse_classification 9 2 "CONFIRMED" c6wState c6wStop (by decide)⟩

/-- C4 (amended): before allocation the donations are sorted ascending by
`expiration_date` alone, a missing `expiration_date` being treated as
today + 365 days; `sell_by_date` plays no role in the order.  The sorted
list is a permutation of the input, and any donation with a strictly
earlier expiration key precedes every donation with a later one. -/
theorem sortDonations_by_expiration_only (today : ℤ) (donations : List Donation) :
    (sortDonations today donations).Perm donations
    ∧ List.Sorted (fun a b => urgencyKey today a ≤ urgencyKey today b)
        (sortDonations today donations) :=
  ⟨List.perm_insertionSort _ donations, List.sorted_insertionSort _ donations⟩

/-- Modelled from the spec: the "nearest expiration/sell-by date" of a
donation — the earlier of the two dates, one alone when only one is set,
and today + 365 when neither is set. -/
def specNearestDate (today : ℤ) (d : Donation) : ℤ :=
  match d.expirationDate, d.sellByDate with
  | none, none => today + 365
  | some e, none => e
  | none, some s => s
  | some e, some s => min e s

def c4DonA : Donation := ⟨1, 5, some 10, none⟩

def c4DonB : Donation := ⟨2, 5, none, some 1⟩

/-- C4 (counterexample): donation B's nearest expiration/sell-by date (1)
is earlier than donation A's (10), yet the code orders A before B: the
sort key reads only `expiration_date`, so B (no expiration, sell-by 1) is
keyed today + 365 and sorts last. -/
theorem sort_ignores_sell_by_date :
    specNearestDate 0 c4DonB < specNearestDate 0 c4DonA
    ∧ (sortDonations 0 [c4DonA, c4DonB]).map (·.donationId) = [1, 2] := by
  constructor
  · decide
  · decide

/-- The allocation score is 0 for every bank once the total daily need is 0
(the need ratio collapses to 0 and both branches multiply it away). -/
theorem bankScore_of_totalNeed_zero (b : Bank) (w : ℚ) (d : Donation) :
    bankScore b w 0 d = 0 := by
  simp [bankScore, lt_irrefl]

theorem bestBankAux_needZero_keeps (d : Donation) :
    ∀ (states : List BankState) (idx j : Nat),
      bestBankAux d 0 states idx 0 (some j) = some j := by
  intro states
  induction states with
  | nil => intro idx j; rfl
  | cons s rest ih =>
    intro idx j
    rw [bestBankAux]
    split
    · exact ih (idx + 1) j
    · rw [bankScore_of_totalNeed_zero, if_neg (lt_irrefl (0 : ℚ))]
      exact ih (idx + 1) j

/-- Modelled from the amended reading of the spec's zero-need case: the
index of the first bank in input order whose remaining capacity admits the
donation. -/
def firstEligibleIdx (d : Donation) : List BankState → Option Nat
  | [] => none
  | s :: rest =>
    if d.weight ≤ s.bank.storageCapacity - s.weight then some 0
    else (firstEligibleIdx d rest).map (· + 1)

theorem bestBankAux_needZero_scan (d : Donation) :
    ∀ (states : List BankState) (idx : Nat),
      bestBankAux d 0 states idx (-1) none =
        (firstEligibleIdx d states).map (fun k => idx + k) := by
  intro states
  induction states with
  | nil => intro idx; rfl
  | cons s rest ih =>
    intro idx
    rw [bestBankAux, firstEligibleIdx]
    by_cases hcap : s.bank.storageCapacity - s.weight < d.weight
    · rw [if_pos hcap, if_neg (not_le.mpr hcap), ih (idx + 1)]
      cases firstEligibleIdx d rest with
      | none => rfl
      | some k =>
        simp only [Option.map_some']
        congr 1
        omega
    · rw [if_neg hcap, if_pos (not_lt.mp hcap), bankScore_of_totalNeed_zero,
        if_pos (by norm_num : (-1 : ℚ) < 0), bestBankAux_needZero_keeps]
      simp

/-- C3 (amended): when the banks' total daily need is 0 every bank scores
0, but — because the running best score starts at -1 and 0 > -1 — the
donation is *not* left unallocated: `_find_best_bank_for_donation` selects
the first bank in input order whose remaining capacity admits the
donation (and returns none only when no bank has capacity). -/
theorem need_zero_selects_first_eligible_bank (d : Donation) (states : List BankState) :
    (∀ (b : Bank) (w : ℚ), bankScore b w 0 d = 0)
    ∧ findBestBankIdx d states 0 = firstEligibleIdx d states := by
  refine ⟨fun b w => bankScore_of_totalNeed_zero b w d, ?_⟩
  rw [findBestBankIdx, bestBankAux_needZero_scan]
  cases firstEligibleIdx d states with
  | none => rfl
  | some k => simp

def c3Don : Donation := ⟨1, 10, some 1, none⟩

def c3Bank : Bank := ⟨1, 0, 100, false, (0, 0)⟩

/-- C3 (counterexample): one bank with `daily_average_need_pounds = 0`
(total daily need 0) and storage capacity 100, one 10-pound donation: the
claim says the donation is left unallocated, but the code assigns it to
the bank (score 0 beats the initial best score of -1). -/
theorem need_zero_still_allocates :
    ((([c3Bank] : List Bank).map (·.dailyNeed)).sum = 0)
    ∧ (allocateFoodToBanks 0 [c3Don] [c3Bank]).map (fun s => s.alloc.map (·.donationId)) =
        [[1]] := by
  constructor
  · norm_num [c3Bank]
  · have hbest : findBestBankIdx c3Don [⟨c3Bank, 0, []⟩] 0 = some 0 := by
      rw [findBestBankIdx, bestBankAux]
      rw [if_neg (by norm_num [c3Bank, c3Don] :
        ¬ c3Bank.storageCapacity - (0 : ℚ) < c3Don.weight)]
      rw [bankScore_of_totalNeed_zero, if_pos (by norm_num : (-1 : ℚ) < 0),
        bestBankAux_needZero_keeps]
    have hneed : ((([c3Bank] : List Bank).map (·.dailyNeed)).sum : ℚ) = 0 := by
      norm_num [c3Bank]
    rw [allocateFoodToBanks]
    rw [if_neg (by decide : ¬ ([c3Bank] : List Bank).isEmpty = true)]
    simp only [hneed]
    rw [show sortDonations 0 [c3Don] = [c3Don] from rfl]
    simp only [List.foldl_cons, List.foldl_nil, List.map_cons, List.map_nil, allocStep]
    rw [hbest]
    rfl

/-- All donations sitting in some bank's bucket, in bucket order. -/
def allocatedDons (states : List BankState) : List Donation :=
  (states.map (·.alloc)).flatten

/-- A selected index points at a bank whose remaining capacity admits the
donation. -/
theorem bestBankAux_some_spec (d : Donation) (tn : ℚ) :
    ∀ (states : List BankState) (idx : Nat) (bs : ℚ) (best : Option Nat) (i : Nat),
      bestBankAux d tn states idx bs best = some i →
      best = some i ∨ ∃ k, ∃ h : k < states.length, i = idx + k ∧
        d.weight ≤ (states.get ⟨k, h⟩).bank.storageCapacity - (states.get ⟨k, h⟩).weight := by
  intro states
  induction states with
  | nil =>
    intro idx bs best i h
    exact Or.inl h
  | cons s rest ih =>
    intro idx bs best i h
    rw [bestBankAux] at h
    by_cases hcap : s.bank.storageCapacity - s.weight < d.weight
    · rw [if_pos hcap] at h
      rcases ih (idx + 1) bs best i h with h1 | ⟨k, hk, hik, hc⟩
      · exact Or.inl h1
      · exact Or.inr ⟨k + 1, by simpa using hk, by omega, hc⟩
    · rw [if_neg hcap] at h
      simp only [] at h
      by_cases hsc : bs < bankScore s.bank s.weight tn d
      · rw [if_pos hsc] at h
        rcases ih (idx + 1) _ (some idx) i h with h1 | ⟨k, hk, hik, hc⟩
        · have hi : i = idx := by
            injection h1 with h2
            exact h2.symm
          refine Or.inr ⟨0, by simp, by omega, ?_⟩
          simpa using not_lt.mp hcap
        · exact Or.inr ⟨k + 1, by simpa using hk, by omega, hc⟩
      · rw [if_neg hsc] at h
        rcases ih (idx + 1) bs best i h with h1 | ⟨k, hk, hik, hc⟩
        · exact Or.inl h1
        · exact Or.inr ⟨k + 1, by simpa using hk, by omega, hc⟩

theorem findBestBankIdx_some (d : Donation) (tn : ℚ) (states : List BankState) (i : Nat)
    (h : findBestBankIdx d states tn = some i) :
    ∃ hi : i < states.length,
      d.weight ≤ (states.get ⟨i, hi⟩).bank.storageCapacity - (states.get ⟨i, hi⟩).weight := by
  rcases bestBankAux_some_spec d tn states 0 (-1) none i h with h1 | ⟨k, hk, hik, hc⟩
  · exact absurd h1 (by simp)
  · have : i = k := by omega
    subst this
    exact ⟨hk, hc⟩

theorem modifyIdx_mem {α : Type} (f : α → α) :
    ∀ (l : List α) (i : Nat) (s : α), s ∈ modifyIdx l i f →
      s ∈ l ∨ ∃ h : i < l.length, s = f (l.get ⟨i, h⟩) := by
  intro l
  induction l with
  | nil =>
    intro i s h
    exact Or.inl (by simpa [modifyIdx] using h)
  | cons x xs ih =>
    intro i s h
    cases i with
    | zero =>
      rcases List.mem_cons.mp (by simpa [modifyIdx] using h) with h1 | h1
      · exact Or.inr ⟨by simp, by simpa using h1⟩
      · exact Or.inl (List.mem_cons_of_mem x h1)
    | succ n =>
      rcases List.mem_cons.mp (by simpa [modifyIdx] using h) with h1 | h1
      · exact Or.inl (by simp [h1])
      · rcases ih n s h1 with h2 | ⟨hn, h2⟩
        · exact Or.inl (List.mem_cons_of_mem x h2)
        · exact Or.inr ⟨by simpa using Nat.succ_lt_succ hn, by simpa using h2⟩

theorem modifyIdx_count_le (d x : Donation) :
    ∀ (l : List BankState) (i : Nat),
      (allocatedDons (modifyIdx l i
          (fun s => { s with weight := s.weight + d.weight, alloc := s.alloc ++ [d] }))).count x
        ≤ (allocatedDons l).count x + List.count x [d] := by
  intro l
  induction l with
  | nil =>
    intro i
    simp [modifyIdx, allocatedDons]
  | cons s rest ih =>
    intro i
    cases i with
    | zero =>
      simp only [modifyIdx, allocatedDons, List.map_cons, List.flatten_cons,
        List.count_append]
      omega
    | succ n =>
      have := ih n
      simp only [modifyIdx, allocatedDons, List.map_cons, List.flatten_cons,
        List.count_append] at this ⊢
      omega

theorem allocStep_count_le (tn : ℚ) (states : List BankState) (d x : Donation) :
    (allocatedDons (allocStep tn states d)).count x
      ≤ (allocatedDons states).count x + List.count x [d] := by
  rw [allocStep]
  cases h : findBestBankIdx d states tn with
  | none => exact Nat.le_add_right _ _
  | some i => exact modifyIdx_count_le d x states i

theorem foldl_allocStep_count_le (tn : ℚ) (x : Donation) :
    ∀ (ds : List Donation) (states : List BankState),
      (allocatedDons (ds.foldl (fun st d => allocStep tn st d) states)).count x
        ≤ (allocatedDons states).count x + ds.count x := by
  intro ds
  induction ds with
  | nil => intro states; simp
  | cons d rest ih =>
    intro states
    calc (allocatedDons ((d :: rest).foldl (fun st d => allocStep tn st d) states)).count x
        = (allocatedDons (rest.foldl (fun st d => allocStep tn st d)
            (allocStep tn states d))).count x := by rw [List.foldl_cons]
      _ ≤ (allocatedDons (allocStep tn states d)).count x + rest.count x := ih _
      _ ≤ (allocatedDons states).count x + List.count x [d] + rest.count x := by
          have := allocStep_count_le tn states d x
          omega
      _ ≤ (allocatedDons states).count x + (d :: rest).count x := by
          rw [List.count_cons]
          simp [List.count_cons, List.count_nil]
          omega

/-- The running-weight/bucket invariant of the allocation loop: each bank's
recorded running weight is the weight of its bucket, and it never exceeds
the bank's storage capacity. -/
def WeightInv (states : List BankState) : Prop :=
  ∀ s ∈ states, s.weight = (s.alloc.map (·.weight)).sum
    ∧ s.weight ≤ s.bank.storageCapacity

theorem allocStep_weightInv (tn : ℚ) (d : Donation) (states : List BankState)
    (h : WeightInv states) : WeightInv (allocStep tn states d) := by
  rw [allocStep]
  cases hf : findBestBankIdx d states tn with
  | none => exact h
  | some i =>
    obtain ⟨hi, hcap⟩ := findBestBankIdx_some d tn states i hf
    intro s hs
    rcases modifyIdx_mem _ states i s hs with hmem | ⟨hi', heq⟩
    · exact h s hmem
    · obtain ⟨hw, hb⟩ := h (states.get ⟨i, hi'⟩) (states.get_mem i hi')
      have hcap' : d.weight ≤ (states.get ⟨i, hi'⟩).bank.storageCapacity
          - (states.get ⟨i, hi'⟩).weight := hcap
      simp only [List.get_eq_getElem] at hw hb hcap' heq
      constructor
      · rw [heq]
        simp [hw]
      · rw [heq]
        simp only []
        linarith

theorem foldl_allocStep_weightInv (tn : ℚ) :
    ∀ (ds : List Donation) (states : List BankState),
      WeightInv states → WeightInv (ds.foldl (fun st d => allocStep tn st d) states) := by
  intro ds
  induction ds with
  | nil => intro states h; simpa using h
  | cons d rest ih =>
    intro states h
    rw [List.foldl_cons]
    exact ih _ (allocStep_weightInv tn d states h)

theorem countP_mem_le_count (x : Donation) :
    ∀ states : List BankState,
      states.countP (fun s => decide (x ∈ s.alloc)) ≤ (allocatedDons states).count x := by
  intro states
  induction states with
  | nil => simp [allocatedDons]
  | cons s rest ih =>
    simp only [List.countP_cons, allocatedDons, List.map_cons, List.flatten_cons,
      List.count_append] at ih ⊢
    by_cases hx : x ∈ s.alloc
    · have h1 : decide (x ∈ s.alloc) = true := by simp [hx]
      have hpos : 0 < s.alloc.count x := List.count_pos_iff.mpr hx
      rw [if_pos h1]
      omega
    · have h1 : ¬ (decide (x ∈ s.alloc) = true) := by simp [hx]
      rw [if_neg h1]
      omega

/-- C2: for positive-weight donations and banks with positive total daily
need, total capacity at least the total weight (and the model-level facts
that storage capacities are nonnegative and donation records distinct),
`_allocate_food_to_banks` never duplicates a donation across banks — each
donation appears in the buckets at most as often as in the input, and in at
most one bank's bucket — and no bank's bucket weight ever exceeds its
storage capacity. -/
theorem allocation_no_duplicates_within_capacity (today : ℤ)
    (donations : List Donation) (banks : List Bank)
    (hw : ∀ d ∈ donations, 0 < d.weight)
    (hnodup : donations.Nodup)
    (hcap : ∀ b ∈ banks, 0 ≤ b.storageCapacity)
    (hneed : 0 < (banks.map (·.dailyNeed)).sum)
    (htot : (donations.map (·.weight)).sum ≤ (banks.map (·.storageCapacity)).sum) :
    (∀ x : Donation,
        (allocatedDons (allocateFoodToBanks today donations banks)).count x
          ≤ donations.count x)
    ∧ (∀ x : Donation,
        (allocateFoodToBanks today donations banks).countP
          (fun s => decide (x ∈ s.alloc)) ≤ 1)
    ∧ ∀ s ∈ allocateFoodToBanks today donations banks,
        (s.alloc.map (·.weight)).sum ≤ s.bank.storageCapacity := by
  by_cases hb : banks.isEmpty = true
  · rw [allocateFoodToBanks, if_pos hb]
    refine ⟨fun x => ?_, fun x => ?_, fun s hs => absurd hs (List.not_mem_nil s)⟩
    · simp [allocatedDons]
    · simp
  · have hinit : allocatedDons (banks.map fun b => ⟨b, 0, []⟩) = [] := by
      induction banks with
      | nil => rfl
      | cons b bs ih => simpa [allocatedDons] using ih
    have hperm : (sortDonations today donations).Perm donations :=
      List.perm_insertionSort _ donations
    have hresult : allocateFoodToBanks today donations banks =
        (sortDonations today donations).foldl
          (fun states d => allocStep ((banks.map (·.dailyNeed)).sum) states d)
          (banks.map fun b => ⟨b, 0, []⟩) := by
      rw [allocateFoodToBanks, if_neg hb]
    have hcount : ∀ x : Donation,
        (allocatedDons (allocateFoodToBanks today donations banks)).count x
          ≤ donations.count x := by
      intro x
      rw [hresult]
      have h1 := foldl_allocStep_count_le ((banks.map (·.dailyNeed)).sum) x
        (sortDonations today donations) (banks.map fun b => ⟨b, 0, []⟩)
      rw [hinit, hperm.count_eq] at h1
      simpa using h1
    refine ⟨hcount, fun x => ?_, ?_⟩
    · have h2 := countP_mem_le_count x (allocateFoodToBanks today donations banks)
      have h3 := hcount x
      have h4 : donations.count x ≤ 1 := List.nodup_iff_count_le_one.mp hnodup x
      omega
    · intro s hs
      have hinv : WeightInv (allocateFoodToBanks today donations banks) := by
        rw [hresult]
        apply foldl_allocStep_weightInv
        intro t ht
        obtain ⟨b, hbmem, rfl⟩ := List.mem_map.mp ht
        exact ⟨by simp, hcap b hbmem⟩
      obtain ⟨hw1, hw2⟩ := hinv s hs
      rw [← hw1]
      exact hw2

def c2Don : Donation := ⟨1, 10, some 1, none⟩

def c2Bank : Bank := ⟨1, 5, 100, false, (0, 0)⟩

theorem allocation_no_duplicates_within_capacity_witness :
    ((∀ d ∈ [c2Don], 0 < d.weight)
      ∧ ([c2Don] : List Donation).Nodup
      ∧ (∀ b ∈ [c2Bank], 0 ≤ b.storageCapacity)
      ∧ 0 < (([c2Bank] : List Bank).map (·.dailyNeed)).sum
      ∧ (([c2Don] : List Donation).map (·.weight)).sum ≤
          (([c2Bank] : List Bank).map (·.storageCapacity)).sum)
    ∧ ((∀ x : Donation,
          (allocatedDons (allocateFoodToBanks 0 [c2Don] [c2Bank])).count x
            ≤ ([c2Don] : List Donation).count x)
      ∧ (∀ x : Donation,
          (allocateFoodToBanks 0 [c2Don] [c2Bank]).countP
            (fun s => decide (x ∈ s.alloc)) ≤ 1)
      ∧ ∀ s ∈ allocateFoodToBanks 0 [c2Don] [c2Bank],
          (s.alloc.map (·.weight)).sum ≤ s.bank.storageCapacity) :=
  ⟨⟨by decide, by decide, by decide, by norm_num [c2Bank], by norm_num [c2Don, c2Bank]⟩,
    allocation_no_duplicates_within_capacity 0 [c2Don] [c2Bank]
      (by decide) (by decide) (by decide)
      (by norm_num [c2Bank]) (by norm_num [c2Don, c2Bank])⟩

theorem travelTime_ge_five (q : ℚ) : 5 ≤ travelTime q :=
  le_max_left _ _

theorem estimatePickupDuration_ge (donations : List Donation) :
    15 ≤ estimatePickupDuration donations :=
  le_max_left _ _

theorem estimateDeliveryDuration_ge (donations : List Donation) :
    20 ≤ estimateDeliveryDuration donations :=
  le_max_left _ _

theorem nnAux_perm {α : Type} [DecidableEq α] (dist : Loc → Loc → ℚ)
    (locOf : α → Loc) (dwell : α → ℤ) :
    ∀ (n : Nat) (l : List α) (cur : Loc) (time : ℤ), l.length = n →
      ((nnAux dist locOf dwell cur time l).map (·.stop)).Perm l := by
  intro n
  induction n using Nat.strong_induction_on with
  | _ n ih =>
    intro l cur time hlen
    cases l with
    | nil => simp [nnAux]
    | cons x xs =>
      have hs : nearestIn dist locOf cur x xs ∈ x :: xs := nearestIn_mem dist locOf cur x xs
      have herase : ((x :: xs).erase (nearestIn dist locOf cur x xs)).length = xs.length := by
        rw [List.length_erase_of_mem hs]
        simp
      have hlt : xs.length < n := by simp at hlen; omega
      have hrec := ih xs.length hlt ((x :: xs).erase (nearestIn dist locOf cur x xs))
        (locOf (nearestIn dist locOf cur x xs))
        (time + travelTime (dist cur (locOf (nearestIn dist locOf cur x xs)))
          + dwell (nearestIn dist locOf cur x xs)) herase
      rw [nnAux]
      simp only [List.map_cons]
      exact (hrec.cons (nearestIn dist locOf cur x xs)).trans
        (List.perm_cons_erase hs).symm

theorem nnAux_arrival_chain {α : Type} [DecidableEq α] (dist : Loc → Loc → ℚ)
    (locOf : α → Loc) (dwell : α → ℤ) (hd : ∀ a : α, 0 ≤ dwell a) :
    ∀ (n : Nat) (l : List α) (cur : Loc) (time : ℤ), l.length = n →
      List.Chain' (· ≤ ·) ((nnAux dist locOf dwell cur time l).map (·.arrival))
      ∧ ∀ e ∈ nnAux dist locOf dwell cur time l, time ≤ e.arrival := by
  intro n
  induction n using Nat.strong_induction_on with
  | _ n ih =>
    intro l cur time hlen
    cases l with
    | nil => simp [nnAux]
    | cons x xs =>
      have hs : nearestIn dist locOf cur x xs ∈ x :: xs := nearestIn_mem dist locOf cur x xs
      have herase : ((x :: xs).erase (nearestIn dist locOf cur x xs)).length = xs.length := by
        rw [List.length_erase_of_mem hs]
        simp
      have hlt : xs.length < n := by simp at hlen; omega
      have htt : (5 : ℤ) ≤ travelTime (dist cur (locOf (nearestIn dist locOf cur x xs))) :=
        travelTime_ge_five _
      have hdw : (0 : ℤ) ≤ dwell (nearestIn dist locOf cur x xs) := hd _
      obtain ⟨hchain, hbound⟩ := ih xs.length hlt
        ((x :: xs).erase (nearestIn dist locOf cur x xs))
        (locOf (nearestIn dist locOf cur x xs))
        (time + travelTime (dist cur (locOf (nearestIn dist locOf cur x xs)))
          + dwell (nearestIn dist locOf cur x xs)) herase
      rw [nnAux]
      simp only [List.map_cons]
      constructor
      · rw [List.chain'_cons']
        refine ⟨?_, hchain⟩
        intro b hb
        have hmem : ∃ e ∈ nnAux dist locOf dwell
            (locOf (nearestIn dist locOf cur x xs))
            (time + travelTime (dist cur (locOf (nearestIn dist locOf cur x xs)))
              + dwell (nearestIn dist locOf cur x xs))
            ((x :: xs).erase (nearestIn dist locOf cur x xs)),
            e.arrival = b := by
          cases hrecL : nnAux dist locOf dwell
              (locOf (nearestIn dist locOf cur x xs))
              (time + travelTime (dist cur (locOf (nearestIn dist locOf cur x xs)))
                + dwell (nearestIn dist locOf cur x xs))
              ((x :: xs).erase (nearestIn dist locOf cur x xs)) with
          | nil =>
            rw [hrecL] at hb
            simp at hb
          | cons e es =>
            rw [hrecL] at hb
            simp at hb
            exact ⟨e, by simp [hrecL], by simp [hb]⟩
        obtain ⟨e, he, rfl⟩ := hmem
        have := hbound e he
        omega
      · intro e he
        rcases List.mem_cons.mp he with h | h
        · rw [h]
          simp
          omega
        · have := hbound e h
          omega

theorem nnAux_entry_bounds {α : Type} [DecidableEq α] (dist : Loc → Loc → ℚ)
    (locOf : α → Loc) (dwell : α → ℤ) (c : ℤ) (hd : ∀ a : α, c ≤ dwell a) :
    ∀ (n : Nat) (l : List α) (cur : Loc) (time : ℤ), l.length = n →
      ∀ e ∈ nnAux dist locOf dwell cur time l, 5 ≤ e.travel ∧ c ≤ e.duration := by
  intro n
  induction n using Nat.strong_induction_on with
  | _ n ih =>
    intro l cur time hlen
    cases l with
    | nil => simp [nnAux]
    | cons x xs =>
      have hs : nearestIn dist locOf cur x xs ∈ x :: xs := nearestIn_mem dist locOf cur x xs
      have herase : ((x :: xs).erase (nearestIn dist locOf cur x xs)).length = xs.length := by
        rw [List.length_erase_of_mem hs]
        simp
      have hlt : xs.length < n := by simp at hlen; omega
      intro e he
      rw [nnAux] at he
      rcases List.mem_cons.mp he with h | h
      · rw [h]
        exact ⟨travelTime_ge_five _, hd _⟩
      · exact ih xs.length hlt _ _ _ herase e h

theorem processDeliveries_chain :
    ∀ (ds : List DeliveryEntry) (cur : ℤ),
      (∀ d ∈ ds, 0 ≤ d.travelTime ∧ 0 ≤ d.deliveryDuration) →
      List.Chain' (· ≤ ·) (processDeliveries cur ds).1
      ∧ ∀ a ∈ (processDeliveries cur ds).1, cur ≤ a := by
  intro ds
  induction ds with
  | nil => intro cur _; simp [processDeliveries]
  | cons d rest ih =>
    intro cur hb
    obtain ⟨hdt, hdd⟩ := hb d (List.mem_cons_self d rest)
    obtain ⟨hchain, hbound⟩ := ih (cur + d.travelTime + d.deliveryDuration)
      (fun e he => hb e (List.mem_cons_of_mem d he))
    rw [processDeliveries]
    simp only []
    constructor
    · rw [List.chain'_cons']
      refine ⟨?_, hchain⟩
      intro b hbmem
      have hmem : ∃ a ∈ (processDeliveries (cur + d.travelTime + d.deliveryDuration) rest).1,
          a = b := by
        cases hr : (processDeliveries (cur + d.travelTime + d.deliveryDuration) rest).1 with
        | nil =>
          rw [hr] at hbmem
          simp at hbmem
        | cons a as =>
          rw [hr] at hbmem
          simp at hbmem
          exact ⟨a, by simp [hr], by simp [hbmem]⟩
      obtain ⟨a, ha, rfl⟩ := hmem
      have := hbound a ha
      omega
    · intro a ha
      rcases List.mem_cons.mp ha with h | h
      · omega
      · have := hbound a h
        omega

set_option maxHeartbeats 1000000 in
/-- C5: the nearest-neighbor sequence planner visits every input location
exactly once — the pickup run's stops are a permutation of the grouped
stores and the delivery run's stops are a permutation of the banks that
received an allocation — the annotated arrival times are non-decreasing
along the pickup sequence and along the delivery sequence as annotated by
`_create_route_plan`, and an empty input yields an empty sequence for both
runs. -/
theorem sequencePlanner_permutation_and_monotone_arrivals :
    (∀ (dist : Loc → Loc → ℚ) (depot : Loc) (startTime : ℤ) (sd : List PStop),
        ((optimizePickupSequence dist depot startTime sd).map (·.stop)).Perm sd
        ∧ List.Chain' (· ≤ ·)
            ((optimizePickupSequence dist depot startTime sd).map (·.arrival))
        ∧ optimizePickupSequence dist depot startTime [] = [])
    ∧ (∀ (dist : Loc → Loc → ℚ) (depot : Loc) (alloc : List BankState),
        ((optimizeDeliverySequence dist depot alloc).map (·.stop)).Perm
          (alloc.filter (fun s => !s.alloc.isEmpty))
        ∧ optimizeDeliverySequence dist depot [] = [])
    ∧ (∀ (dist : Loc → Loc → ℚ) (depot : Loc) (alloc : List BankState)
        (cap : ℚ) (startTime : ℤ) (ps : List PickupEntry),
        List.Chain' (· ≤ ·)
          ((createRoutePlan cap startTime ps
            ((optimizeDeliverySequence dist depot alloc).map toDeliveryEntry)
            ).deliveryArrivals)) := by
  refine ⟨?_, ?_, ?_⟩
  · intro dist depot startTime sd
    refine ⟨nnAux_perm dist PStop.loc _ sd.length sd depot startTime rfl, ?_, ?_⟩
    · exact (nnAux_arrival_chain dist PStop.loc _
        (fun a => le_trans (by norm_num) (estimatePickupDuration_ge a.donations))
        sd.length sd depot startTime rfl).1
    · simp [optimizePickupSequence, nnAux]
  · intro dist depot alloc
    constructor
    · exact nnAux_perm dist (fun s => s.bank.loc) _
        (alloc.filter (fun s => !s.alloc.isEmpty)).length _ depot 0 rfl
    · simp [optimizeDeliverySequence, nnAux]
  · intro dist depot alloc cap startTime ps
    have hb : ∀ d ∈ (optimizeDeliverySequence dist depot alloc).map toDeliveryEntry,
        0 ≤ d.travelTime ∧ 0 ≤ d.deliveryDuration := by
      intro d hd
      obtain ⟨e, he, rfl⟩ := List.mem_map.mp hd
      have he' : e ∈ nnAux dist (fun s => s.bank.loc)
          (fun s => estimateDeliveryDuration s.alloc) depot 0
          (alloc.filter (fun s => !s.alloc.isEmpty)) := he
      have hbd := nnAux_entry_bounds dist (fun s : BankState => s.bank.loc)
          (fun s : BankState => estimateDeliveryDuration s.alloc) 20
          (fun a => estimateDeliveryDuration_ge a.alloc)
          (alloc.filter (fun s => !s.alloc.isEmpty)).length
          (alloc.filter (fun s => !s.alloc.isEmpty)) depot 0 rfl
      have hx := hbd e he'
      simp only [toDeliveryEntry]
      omega
    have hch := processDeliveries_chain
      ((optimizeDeliverySequence dist depot alloc).map toDeliveryEntry)
      (processPickups startTime ps).2.1 hb
    show List.Chain' (· ≤ ·)
      ((processDeliveries (processPickups startTime ps).2.1
        ((optimizeDeliverySequence dist depot alloc).map toDeliveryEntry)).1)
    exact hch.1

end FoodRescue
